import Mathlib

/-!
# vmmanager6 client: retry, polling and mutation flows

A shallow embedding of `client.go`.  Every client method becomes a function
from the world before the call to its result and the world after it.  The
world records, in order, the requests handed to the session and the sleeps
performed, so that "how many status queries" and "which sleeps" are
statements about the recorded trace.

Conventions of the embedding:

* Go `int` is the 64-bit integer type; its values are kept as integers
  (`Int`).  The retry counter stays within `0 .. tries` and the poll counter
  within `0 .. TaskTimeout + 4`, so this agrees with the machine arithmetic
  whenever `TaskTimeout + 4` fits an `int`; the theorem on the polling loop
  carries that bound.
* The conversion `int(f)` of a `float64` is the truncation of `f` when that
  fits an `int`; the theorems about task ids carry that range.
* `time.Sleep` is recorded with its length in seconds.
* A Go `error` is `Option String`: `none` is `nil`, `some m` an error whose
  message is `m`.
* `interface{}` values decoded from JSON are `Json`; the nil interface and a
  JSON `null` are both `Json.null`.
* A failed type assertion or an index out of range is a run-time panic, kept
  as the result `Run.panic`.
* The debug line written by `log.Printf` has no effect on results, requests
  or sleeps and is not recorded.
-/

namespace Vmmanager6

/-- A JSON value as `encoding/json` decodes it into `interface{}`: numbers
become `float64` (every such value is a rational), objects become
`map[string]interface{}`, arrays `[]interface{}`. -/
inductive Json where
  | null
  | bool (b : Bool)
  | num (x : Rat)
  | str (s : String)
  | arr (xs : List Json)
  | obj (kvs : List (String × Json))

/-- A `map[string]interface{}` variable: `none` is the nil map. -/
abbrev JsonMap := Option (List (String × Json))

/-- The expression `m[k]`: the nil interface when the key is missing (also on a nil map). -/
def JsonMap.index (m : JsonMap) (k : String) : Json :=
  match m with
  | none => Json.null
  | some kvs => (kvs.lookup k).getD Json.null

/-- The test `v == nil` on an `interface{}` value. -/
def Json.isNil : Json → Bool
  | Json.null => true
  | _ => false

/-- The type assertion `v.(float64)`; `none` is the panic. -/
def Json.asFloat64 : Json → Option Rat
  | Json.num x => some x
  | _ => none

/-- The type assertion `v.(string)`; `none` is the panic. -/
def Json.asString : Json → Option String
  | Json.str s => some s
  | _ => none

/-- The type assertion `v.([]interface{})`; `none` is the panic. -/
def Json.asSlice : Json → Option (List Json)
  | Json.arr xs => some xs
  | _ => none

/-- The type assertion `v.(map[string]interface{})`; `none` is the panic. -/
def Json.asMap : Json → Option (List (String × Json))
  | Json.obj kvs => some kvs
  | _ => none

/-- The largest value of `int`, `math.MaxInt64`. -/
def MaxInt64 : Int := 9223372036854775807

/-- The least value of `int`, `math.MinInt64`. -/
def MinInt64 : Int := -9223372036854775808

/-- The integer part of a `float64`: the fraction is discarded (truncation towards zero). -/
def truncFloat (x : Rat) : Int :=
  Int.tdiv x.num (x.den : Int)

/-- The conversion `int(f)` of a `float64`: the integer part of `f` when it
is a value of `int`.  When it is not, the Go specification leaves the result
to the implementation; the value taken here is the one the amd64 conversion
instruction gives, the least `int`. -/
def goInt (x : Rat) : Int :=
  if MinInt64 ≤ truncFloat x ∧ truncFloat x ≤ MaxInt64 then truncFloat x else MinInt64

/-- What a client method does to the outside, in order of occurrence. -/
inductive Event where
  | get (url : String)
  | post (url : String)
  | sleep (seconds : Int)
  deriving DecidableEq, Repr

/-- The world a call runs in: how many requests the session has answered and
the trace of requests and sleeps so far. -/
structure World where
  calls : Nat
  log : List Event
  deriving DecidableEq, Repr

/-- The world after one more request was handed to the session. -/
def World.request (w : World) (e : Event) : World :=
  { calls := w.calls + 1, log := w.log ++ [e] }

/-- The world after `time.Sleep` of the given number of seconds. -/
def World.sleep (w : World) (seconds : Int) : World :=
  { calls := w.calls, log := w.log ++ [Event.sleep seconds] }

/-- Modelled from the spec: the `Session` collaborator, whose source file is
not among the sources.  Its capability surface is `getJSON(path, ...)` and
`postJSON(path, ..., body)`, each answering with a transport error or a
decoded JSON object.  The answer to a request may depend on the path and on
how many requests came before it; the payload of a POST is fixed by the
caller and is part of what the answer stands for. -/
structure Session where
  GetJSON : Nat → String → Except String JsonMap
  PostJSON : Nat → String → Except String JsonMap

/-- The fields of `Client`. -/
structure Client where
  session : Session
  ApiUrl : String
  Username : String
  Password : String
  TaskTimeout : Int

/-- The two standard-library renderings the client relies on:
`json.MarshalIndent(v, "", "  ")` converted to a string, and the message of
`fmt.Errorf(format)` called with a format and no operands. -/
structure GoLib where
  MarshalIndent : Json → String
  Errorf : String → String

/-- The outcome of a call that may panic. -/
inductive Run (α : Type) where
  | ret (a : α)
  | panic (reason : String)

/-- The constant `exitStatusSuccess`. -/
def exitStatusSuccess : String := "complete"

/-- The constant `TaskStatusCheckInterval`, in seconds. -/
def TaskStatusCheckInterval : Int := 5

/-- The loop of `GetJsonRetryable`, entered with the counter `ii`, the last
error `statErr` and the caller's `data`. -/
def GetJsonRetryable.loop (c : Client) (url : String) (tries : Int) (ii : Int)
    (statErr : Option String) (data : JsonMap) (w : World) :
    (Option String × JsonMap) × World :=
  if ii < tries then
    match c.session.GetJSON w.calls url with
    | Except.ok d => ((none, d), w.request (Event.get url))
    | Except.error e =>
      GetJsonRetryable.loop c url tries (ii + 1) (some e) data
        ((w.request (Event.get url)).sleep (ii + 1))
  else ((statErr, data), w)
termination_by (tries - ii).toNat
decreasing_by omega

/-- Method `Client.GetJsonRetryable`: the returned error and the value left in
`*data`.  A successful GET stores the decoded body there; what a failed GET
leaves there is the session's business, and the callers drop it. -/
def GetJsonRetryable (c : Client) (url : String) (data : JsonMap) (tries : Int) (w : World) :
    (Option String × JsonMap) × World :=
  GetJsonRetryable.loop c url tries 0 none data w

/-- The struct `VmRef`. -/
structure VmRef where
  vmId : Int

/-- Modelled from the spec: the payload type `ConfigNewQemu` is declared
outside the sources (the shapes of the configuration payloads are out of
scope).  The client forwards it to the session and prints it with `%v`; it
is kept as that printed text. -/
structure ConfigNewQemu where
  text : String

/-- Modelled from the spec: the payload type `UpdateConfigQemu` is declared
outside the sources; the client only forwards it to the session. -/
structure UpdateConfigQemu where
  text : String

/-- The path `GetVmInfo` asks for: `/host?where=id+EQ+%v` with the VM id. -/
def hostFilterUrl (vmId : Int) : String :=
  "/host?where=id+EQ+" ++ toString vmId

/-- Method `Client.GetVmInfo`: the record and the error. -/
def GetVmInfo (c : Client) (vmr : VmRef) (w : World) :
    Run (JsonMap × Option String) × World :=
  match GetJsonRetryable c (hostFilterUrl vmr.vmId) none 3 w with
  | ((some err, _), w1) => (Run.ret (none, some err), w1)
  | ((none, vmlist), w1) =>
    if (vmlist.index "list").isNil then
      (Run.ret (none, some ("can't find vm id " ++ toString vmr.vmId)), w1)
    else
      match (vmlist.index "list").asSlice with
      | none => (Run.panic "interface conversion: not a slice", w1)
      | some vms =>
        match vms with
        | [] => (Run.panic "index out of range [0] with length 0", w1)
        | vm :: _ =>
          match vm.asMap with
          | none => (Run.panic "interface conversion: not a map", w1)
          | some vmInfo => (Run.ret (some vmInfo, none), w1)

/-- The path `GetTaskExitstatus` asks for: `/task?where=consul_id+EQ+%v` with the task id. -/
def taskStatusUrl (taskUpid : Int) : String :=
  "/task?where=consul_id+EQ+" ++ toString taskUpid

/-- Method `Client.GetTaskExitstatus`: the exit status and the error. -/
def GetTaskExitstatus (L : GoLib) (c : Client) (taskUpid : Int) (w : World) :
    Run (String × Option String) × World :=
  let url := taskStatusUrl taskUpid
  let w1 := w.request (Event.get url)
  match c.session.GetJSON w.calls url with
  | Except.error err =>
    -- exitStatus is still the empty string here
    (Run.ret ("", if "" ≠ exitStatusSuccess then some (L.Errorf "") else some err), w1)
  | Except.ok data =>
    match (data.index "list").asSlice with
    | none => (Run.panic "interface conversion: not a slice", w1)
    | some tasks =>
      match tasks with
      | [] => (Run.panic "index out of range [0] with length 0", w1)
      | t :: _ =>
        match t.asMap with
        | none => (Run.panic "interface conversion: not a map", w1)
        | some task =>
          match (JsonMap.index (some task) "status").asString with
          | none => (Run.panic "interface conversion: not string", w1)
          | some exitStatus =>
            (Run.ret (exitStatus,
              if exitStatus ≠ exitStatusSuccess then some (L.Errorf exitStatus) else none), w1)

/-- The polling loop of `WaitForCompletion`, entered with the counter `waited`. -/
def WaitForCompletion.loop (L : GoLib) (c : Client) (taskUpid : Int) (waited : Int)
    (w : World) : Run (Option String) × World :=
  if waited < c.TaskTimeout then
    match GetTaskExitstatus L c taskUpid w with
    | (Run.panic r, w1) => (Run.panic r, w1)
    | (Run.ret (_, none), w1) => (Run.ret none, w1)
    | (Run.ret (_, some _), w1) =>
      WaitForCompletion.loop L c taskUpid (waited + TaskStatusCheckInterval)
        (w1.sleep TaskStatusCheckInterval)
  else (Run.ret (some ("Wait timeout for: " ++ toString taskUpid)), w)
termination_by (c.TaskTimeout - waited).toNat
decreasing_by simp only [TaskStatusCheckInterval]; omega

/-- Method `Client.WaitForCompletion`. -/
def WaitForCompletion (L : GoLib) (c : Client) (taskResponse : JsonMap) (w : World) :
    Run (Option String) × World :=
  if !(taskResponse.index "error").isNil then
    (Run.ret (some ("error reponse: " ++ L.MarshalIndent (taskResponse.index "error"))), w)
  else if (taskResponse.index "task").isNil then
    (Run.ret none, w)
  else
    match (taskResponse.index "task").asFloat64 with
    | none => (Run.panic "interface conversion: not float64", w)
    | some f => WaitForCompletion.loop L c (goInt f) 0 w

/-- Method `Client.CreateQemuVm`: the new id and the error. -/
def CreateQemuVm (L : GoLib) (c : Client) (vmParams : ConfigNewQemu) (w : World) :
    Run (Int × Option String) × World :=
  let w1 := w.request (Event.post "/host")
  match c.session.PostJSON w.calls "/host" with
  | Except.error err => (Run.ret (0, some err), w1)
  | Except.ok data =>
    if data.isNone then
      (Run.ret (0, some ("Can't create VM with params " ++ vmParams.text)), w1)
    else
      match WaitForCompletion L c data w1 with
      | (Run.panic r, w2) => (Run.panic r, w2)
      | (Run.ret err, w2) =>
        match (data.index "id").asFloat64 with
        | none => (Run.panic "interface conversion: not float64", w2)
        | some f => (Run.ret (goInt f, err), w2)

/-- The path `UpdateQemuConfig` posts to: `/host/%d` with the VM id. -/
def hostUrl (vmId : Int) : String :=
  "/host/" ++ toString vmId

/-- Method `Client.UpdateQemuConfig`. -/
def UpdateQemuConfig (c : Client) (vmr : VmRef) (_config : UpdateConfigQemu) (w : World) :
    Option String × World :=
  let url := hostUrl vmr.vmId
  let w1 := w.request (Event.post url)
  match c.session.PostJSON w.calls url with
  | Except.error err => (some err, w1)
  | Except.ok data =>
    if data.isNone then
      (some ("Can't update VM " ++ toString vmr.vmId ++ " config"), w1)
    else (none, w1)

/-- The sleeps of a trace, in order. -/
def sleepsOf (log : List Event) : List Int :=
  log.filterMap fun e => match e with
    | Event.sleep s => some s
    | _ => none

/-- The number of GET requests in a trace. -/
def getsOf (log : List Event) : Nat :=
  log.countP fun e => match e with
    | Event.get _ => true
    | _ => false

/-- The trace of `k` failed attempts in a row, the first made with counter `ii`:
each is a GET followed by a sleep of counter plus one seconds. -/
def retryTrace (url : String) (ii : Int) : Nat → List Event
  | 0 => []
  | k + 1 => Event.get url :: Event.sleep (ii + 1) :: retryTrace url (ii + 1) k

/-- The trace of `q` unresolved polls in a row: each is a status GET followed
by a sleep of one check interval. -/
def pollTrace (url : String) : Nat → List Event
  | 0 => []
  | q + 1 => Event.get url :: Event.sleep TaskStatusCheckInterval :: pollTrace url q

/-- The world before anything happened. -/
def World.start : World := { calls := 0, log := [] }

/-- A client around a session, with the given task timeout. -/
def Client.around (s : Session) (taskTimeout : Int) : Client :=
  { session := s, ApiUrl := "https://vm.example", Username := "", Password := "",
    TaskTimeout := taskTimeout }

/-- A session whose every request fails at transport level. -/
def Session.down : Session :=
  { GetJSON := fun i _ => Except.error ("connection refused #" ++ toString i)
    PostJSON := fun i _ => Except.error ("connection refused #" ++ toString i) }

/-- A session whose every request is answered with the same body. -/
def Session.always (body : JsonMap) : Session :=
  { GetJSON := fun _ _ => Except.ok body
    PostJSON := fun _ _ => Except.ok body }

/-- A session whose first `k` requests fail at transport level and whose
later requests are answered with `body`. -/
def Session.failFirst (k : Nat) (body : JsonMap) : Session :=
  { GetJSON := fun i _ =>
      if i < k then Except.error ("connection refused #" ++ toString i) else Except.ok body
    PostJSON := fun i _ =>
      if i < k then Except.error ("connection refused #" ++ toString i) else Except.ok body }

/-- A session that answers the POST with `ack` and every GET with `status`. -/
def Session.mutation (ack status : JsonMap) : Session :=
  { GetJSON := fun _ _ => Except.ok status
    PostJSON := fun _ _ => Except.ok ack }

/-- A library instance for the worked examples.  No result below depends on
the renderings, so both are the simplest possible: every value renders as
`null` and a format without operands is its own message. -/
def GoLib.plain : GoLib :=
  { MarshalIndent := fun _ => "null", Errorf := fun s => s }

/-- An answer to a task-status query that does not report success: a
transport error, or a body whose `list` is non-empty and whose first record
has a string `status` other than the success status. -/
def Unresolved (r : Except String JsonMap) : Prop :=
  (∃ m, r = Except.error m) ∨
  (∃ data task rest s, r = Except.ok data
    ∧ data.index "list" = Json.arr (Json.obj task :: rest)
    ∧ JsonMap.index (some task) "status" = Json.str s
    ∧ s ≠ exitStatusSuccess)

/-- An answer to a task-status query that reports success: a body whose
`list` is non-empty and whose first record has status exactly `complete`. -/
def Completed (r : Except String JsonMap) : Prop :=
  ∃ data task rest, r = Except.ok data
    ∧ data.index "list" = Json.arr (Json.obj task :: rest)
    ∧ JsonMap.index (some task) "status" = Json.str "complete"

/-- The number of status queries made for a timeout `T`: the least `q` with `T ≤ 5 * q`. -/
def pollCount (T : Int) : Nat :=
  ((T + 4) / 5).toNat

/-- A task-status body reporting the given status for its only record. -/
def statusBody (status : String) : JsonMap :=
  some [("list", Json.arr [Json.obj [("status", Json.str status)]])]

/-- A mutation acknowledgement that defers to task 42. -/
def deferredAck : JsonMap :=
  some [("task", Json.num 42)]

/-- A listing or task-status body whose `list` is the empty array. -/
def emptyListBody : JsonMap :=
  some [("list", Json.arr [])]

/-- A mutation answer that carries an error object with a numeric code and nothing else. -/
def errorAck : JsonMap :=
  some [("error", Json.obj [("code", Json.num 1)])]

/-! ## Traces -/

theorem sleepsOf_append (l₁ l₂ : List Event) :
    sleepsOf (l₁ ++ l₂) = sleepsOf l₁ ++ sleepsOf l₂ := by
  simp [sleepsOf, List.filterMap_append]

theorem getsOf_append (l₁ l₂ : List Event) :
    getsOf (l₁ ++ l₂) = getsOf l₁ + getsOf l₂ := by
  simp [getsOf, List.countP_append]

theorem sleepsOf_retryTrace (url : String) (k : Nat) (ii : Int) :
    sleepsOf (retryTrace url ii k) = (List.range k).map (fun (j : Nat) => ii + (j : Int) + 1) := by
  induction k generalizing ii with
  | zero => simp [retryTrace, sleepsOf]
  | succ k ih =>
    have h := ih (ii + 1)
    rw [List.range_succ_eq_map]
    simp only [retryTrace, sleepsOf, List.filterMap_cons, List.map_cons, List.map_map] at h ⊢
    rw [h]
    simp only [Nat.cast_zero, add_zero, List.cons.injEq, true_and]
    apply List.map_congr_left
    intro j _
    simp only [Function.comp_apply, Nat.cast_succ]
    ring

theorem getsOf_retryTrace (url : String) (k : Nat) (ii : Int) :
    getsOf (retryTrace url ii k) = k := by
  induction k generalizing ii with
  | zero => simp [retryTrace, getsOf]
  | succ k ih =>
    have h := ih (ii + 1)
    simp only [retryTrace, getsOf, List.countP_cons] at h ⊢
    simp [h]

theorem length_retryTrace (url : String) (k : Nat) (ii : Int) :
    (retryTrace url ii k).length = 2 * k := by
  induction k generalizing ii with
  | zero => simp [retryTrace]
  | succ k ih => simp [retryTrace, ih (ii + 1)]; ring

theorem sleepsOf_pollTrace (url : String) (q : Nat) :
    sleepsOf (pollTrace url q) = List.replicate q TaskStatusCheckInterval := by
  induction q with
  | zero => simp [pollTrace, sleepsOf]
  | succ q ih =>
    simp only [pollTrace, sleepsOf, List.filterMap_cons, List.replicate_succ] at ih ⊢
    rw [ih]

theorem getsOf_pollTrace (url : String) (q : Nat) :
    getsOf (pollTrace url q) = q := by
  induction q with
  | zero => simp [pollTrace, getsOf]
  | succ q ih =>
    simp only [pollTrace, getsOf, List.countP_cons] at ih ⊢
    simp [ih]

theorem sum_range_succ_int (k : Nat) :
    ((List.range k).map (fun (j : Nat) => (0 : Int) + (j : Int) + 1)).sum = (k : Int) * (k + 1) / 2 := by
  have h : ∀ n : Nat, 2 * ((List.range n).map (fun (j : Nat) => (0 : Int) + (j : Int) + 1)).sum
      = (n : Int) * (n + 1) := by
    intro n
    induction n with
    | zero => simp
    | succ n ih =>
      rw [List.range_succ, List.map_append, List.sum_append, mul_add, ih]
      simp
      ring
  have h2 := h k
  omega

/-! ## The retry loop -/

theorem GetJsonRetryable.retry_done (c : Client) (url : String) (tries ii : Int)
    (statErr : Option String) (data : JsonMap) (w : World) (h : ¬ ii < tries) :
    GetJsonRetryable.loop c url tries ii statErr data w = ((statErr, data), w) := by
  rw [GetJsonRetryable.loop, if_neg h]

theorem GetJsonRetryable.retry_ok (c : Client) (url : String) (tries ii : Int)
    (statErr : Option String) (data d : JsonMap) (w : World) (h : ii < tries)
    (hok : c.session.GetJSON w.calls url = Except.ok d) :
    GetJsonRetryable.loop c url tries ii statErr data w
      = ((none, d), w.request (Event.get url)) := by
  rw [GetJsonRetryable.loop, if_pos h, hok]

theorem GetJsonRetryable.retry_error (c : Client) (url : String) (tries ii : Int)
    (statErr : Option String) (data : JsonMap) (w : World) (e : String) (h : ii < tries)
    (herr : c.session.GetJSON w.calls url = Except.error e) :
    GetJsonRetryable.loop c url tries ii statErr data w
      = GetJsonRetryable.loop c url tries (ii + 1) (some e) data
          ((w.request (Event.get url)).sleep (ii + 1)) := by
  rw [GetJsonRetryable.loop, if_pos h, herr]

/-- After `k` failed attempts in a row the loop stands at counter `ii + k`,
holds the error of the last of them, and has recorded a GET and a sleep for each. -/
theorem GetJsonRetryable.retry_failures (c : Client) (url : String) (tries : Int)
    (data : JsonMap) (k : Nat) :
    ∀ (e : Nat → String) (ii : Int) (statErr : Option String) (w : World),
      (∀ j, j < k → c.session.GetJSON (w.calls + j) url = Except.error (e j)) →
      ii + (k : Int) ≤ tries →
      GetJsonRetryable.loop c url tries ii statErr data w
        = GetJsonRetryable.loop c url tries (ii + (k : Int))
            (if k = 0 then statErr else some (e (k - 1))) data
            { calls := w.calls + k, log := w.log ++ retryTrace url ii k } := by
  induction k with
  | zero =>
    intro e ii statErr w _ _
    simp [retryTrace]
  | succ k ih =>
    intro e ii statErr w hfail hle
    have h0 : c.session.GetJSON w.calls url = Except.error (e 0) := by
      simpa using hfail 0 (Nat.succ_pos k)
    have hlt : ii < tries := by push_cast at hle; omega
    rw [GetJsonRetryable.retry_error c url tries ii statErr data w (e 0) hlt h0]
    rw [ih (fun j => e (j + 1)) (ii + 1) (some (e 0))
      ((w.request (Event.get url)).sleep (ii + 1))]
    · have hii : ii + 1 + (k : Int) = ii + ((k + 1 : Nat) : Int) := by push_cast; ring
      rw [hii]
      congr 1
      · cases k with
        | zero => simp
        | succ k => simp
      · simp only [World.request, World.sleep, retryTrace, List.append_assoc,
          List.singleton_append, World.mk.injEq]
        exact ⟨by omega, by simp⟩
    · intro j hj
      have := hfail (j + 1) (Nat.succ_lt_succ hj)
      simp only [World.request, World.sleep]
      rw [← this]
      congr 1
      omega
    · push_cast at hle ⊢
      omega

/-! ## GetJsonRetryable -/

/-- C6: for every n >= 1 and every k < n, if the GET fails on attempts 1..k and
succeeds on attempt k+1, `GetJsonRetryable` with n tries returns success (and
the decoded body) after exactly k+1 attempts; the trace it adds is k times
"GET, sleep" followed by the successful GET, so its sleeps are exactly
1, 2, ..., k seconds in that order, k(k+1)/2 in total, with none after the
successful attempt. -/
theorem GetJsonRetryable_success_after_failures (c : Client) (url : String)
    (data d : JsonMap) (w : World) (n k : Nat)
    (hn : 1 ≤ n) (hk : k < n)
    (hfail : ∀ j, j < k → ∃ m, c.session.GetJSON (w.calls + j) url = Except.error m)
    (hok : c.session.GetJSON (w.calls + k) url = Except.ok d) :
    (GetJsonRetryable c url data (n : Int) w).1 = (none, d)
    ∧ (GetJsonRetryable c url data (n : Int) w).2.calls = w.calls + (k + 1)
    ∧ (GetJsonRetryable c url data (n : Int) w).2.log
        = w.log ++ (retryTrace url 0 k ++ [Event.get url])
    ∧ getsOf (GetJsonRetryable c url data (n : Int) w).2.log = getsOf w.log + (k + 1)
    ∧ sleepsOf (GetJsonRetryable c url data (n : Int) w).2.log
        = sleepsOf w.log ++ (List.range k).map (fun (j : Nat) => (j : Int) + 1)
    ∧ ((List.range k).map (fun (j : Nat) => (j : Int) + 1)).sum = (k : Int) * (k + 1) / 2 := by
  have _ := hn
  let e : Nat → String := fun j =>
    match c.session.GetJSON (w.calls + j) url with
    | Except.error m => m
    | Except.ok _ => ""
  have he : ∀ j, j < k → c.session.GetJSON (w.calls + j) url = Except.error (e j) := by
    intro j hj
    obtain ⟨m, hm⟩ := hfail j hj
    simp only [e, hm]
  have hrun : GetJsonRetryable c url data (n : Int) w
      = ((none, d), { calls := w.calls + (k + 1),
                      log := w.log ++ (retryTrace url 0 k ++ [Event.get url]) }) := by
    rw [GetJsonRetryable,
      GetJsonRetryable.retry_failures c url n data k e 0 none w he (by omega)]
    rw [GetJsonRetryable.retry_ok c url n _ _ data d _ (by omega) hok]
    simp [World.request, Nat.add_assoc]
  have hmap : (List.range k).map (fun (j : Nat) => (0 : Int) + (j : Int) + 1)
      = (List.range k).map (fun (j : Nat) => (j : Int) + 1) := by
    apply List.map_congr_left
    intro j _
    ring
  rw [hrun]
  refine ⟨rfl, rfl, rfl, ?_, ?_, ?_⟩
  · simp only [getsOf_append, getsOf_retryTrace]
    simp [getsOf]
  · simp only [sleepsOf_append, sleepsOf_retryTrace, hmap]
    simp [sleepsOf]
  · rw [← hmap]
    exact sum_range_succ_int k

/-- A run of C6: three tries, two refused connections, then an answer. -/
theorem GetJsonRetryable_success_after_failures_witness :
    (GetJsonRetryable (Client.around (Session.failFirst 2 (some [])) 0) "/node" none
        ((3 : Nat) : Int) World.start).1 = (none, some [])
    ∧ (GetJsonRetryable (Client.around (Session.failFirst 2 (some [])) 0) "/node" none
        ((3 : Nat) : Int) World.start).2.calls = World.start.calls + (2 + 1)
    ∧ (GetJsonRetryable (Client.around (Session.failFirst 2 (some [])) 0) "/node" none
        ((3 : Nat) : Int) World.start).2.log
        = World.start.log ++ (retryTrace "/node" 0 2 ++ [Event.get "/node"])
    ∧ getsOf (GetJsonRetryable (Client.around (Session.failFirst 2 (some [])) 0) "/node" none
        ((3 : Nat) : Int) World.start).2.log = getsOf World.start.log + (2 + 1)
    ∧ sleepsOf (GetJsonRetryable (Client.around (Session.failFirst 2 (some [])) 0) "/node" none
        ((3 : Nat) : Int) World.start).2.log
        = sleepsOf World.start.log ++ (List.range 2).map (fun (j : Nat) => (j : Int) + 1)
    ∧ ((List.range 2).map (fun (j : Nat) => (j : Int) + 1)).sum = ((2 : Nat) : Int) * ((2 : Nat) + 1) / 2 :=
  GetJsonRetryable_success_after_failures
    (Client.around (Session.failFirst 2 (some [])) 0) "/node" none (some []) World.start 3 2
    (by decide) (by decide)
    (fun j hj => ⟨"connection refused #" ++ toString (World.start.calls + j), by
      simp [Client.around, Session.failFirst, World.start, hj]⟩)
    (by simp [Client.around, Session.failFirst, World.start])

/-- The whole run of `GetJsonRetryable` when each of the `n >= 1` attempts fails. -/
theorem GetJsonRetryable.run_all_fail (c : Client) (url : String) (data : JsonMap)
    (w : World) (n : Nat) (e : Nat → String) (hn : 1 ≤ n)
    (hfail : ∀ j, j < n → c.session.GetJSON (w.calls + j) url = Except.error (e j)) :
    GetJsonRetryable c url data (n : Int) w
      = ((some (e (n - 1)), data),
          { calls := w.calls + n, log := w.log ++ retryTrace url 0 n }) := by
  rw [GetJsonRetryable,
    GetJsonRetryable.retry_failures c url n data n e 0 none w hfail (by omega)]
  rw [GetJsonRetryable.retry_done c url n _ _ data _ (by omega)]
  have h0 : n ≠ 0 := by omega
  simp [h0]

/-- C7: for every n >= 1, if the GET fails on each of the first n attempts
(attempt j+1 with the error `e j`), `GetJsonRetryable` with n tries makes
exactly n attempts and returns the error of the n-th attempt, `e (n - 1)`. -/
theorem GetJsonRetryable_returns_last_error (c : Client) (url : String) (data : JsonMap)
    (w : World) (n : Nat) (e : Nat → String) (hn : 1 ≤ n)
    (hfail : ∀ j, j < n → c.session.GetJSON (w.calls + j) url = Except.error (e j)) :
    (GetJsonRetryable c url data (n : Int) w).1.1 = some (e (n - 1))
    ∧ (GetJsonRetryable c url data (n : Int) w).2.calls = w.calls + n
    ∧ getsOf (GetJsonRetryable c url data (n : Int) w).2.log = getsOf w.log + n := by
  rw [GetJsonRetryable.run_all_fail c url data w n e hn hfail]
  refine ⟨rfl, rfl, ?_⟩
  simp only [getsOf_append, getsOf_retryTrace]

/-- A run of C7: three tries against a session that is down; the error that
comes back is the one of the third request (number 2 counting from 0). -/
theorem GetJsonRetryable_returns_last_error_witness :
    (1 ≤ 3)
    ∧ (GetJsonRetryable (Client.around Session.down 0) "/host" none ((3 : Nat) : Int)
        World.start).1.1 = some ("connection refused #" ++ toString (3 - 1))
    ∧ (GetJsonRetryable (Client.around Session.down 0) "/host" none ((3 : Nat) : Int)
        World.start).2.calls = World.start.calls + 3
    ∧ getsOf (GetJsonRetryable (Client.around Session.down 0) "/host" none ((3 : Nat) : Int)
        World.start).2.log = getsOf World.start.log + 3 :=
  ⟨by decide,
    GetJsonRetryable_returns_last_error (Client.around Session.down 0) "/host" none
      World.start 3 (fun j => "connection refused #" ++ toString j) (by decide)
      (fun j _ => by simp [Client.around, Session.down, World.start])⟩

/-- C10 fails on the code: the loop sleeps after every failed attempt, the
last one included, although nothing is asked after it.  With a single try
against a session that is down the trace is one GET and a sleep of one
second, where the claim allows n - 1 = 0 sleeps; with the three tries the
callers use, the sleeps are 1, 2 and 3 seconds, where the claim allows 1 and
2, and the run ends with the sleep of 3 seconds, not with the third GET. -/
theorem GetJsonRetryable_sleeps_after_final_failure :
    sleepsOf (GetJsonRetryable (Client.around Session.down 0) "/node" none 1
        World.start).2.log = [1]
    ∧ (GetJsonRetryable (Client.around Session.down 0) "/node" none 1 World.start).2.log
        = [Event.get "/node", Event.sleep 1]
    ∧ sleepsOf (GetJsonRetryable (Client.around Session.down 0) "/node" none 1
        World.start).2.log ≠ (List.range (1 - 1)).map (fun (j : Nat) => (j : Int) + 1)
    ∧ (GetJsonRetryable (Client.around Session.down 0) "/node" none 3 World.start).2.log
        = [Event.get "/node", Event.sleep 1, Event.get "/node", Event.sleep 2,
            Event.get "/node", Event.sleep 3]
    ∧ sleepsOf (GetJsonRetryable (Client.around Session.down 0) "/node" none 3
        World.start).2.log = [1, 2, 3]
    ∧ sleepsOf (GetJsonRetryable (Client.around Session.down 0) "/node" none 3
        World.start).2.log ≠ (List.range (3 - 1)).map (fun (j : Nat) => (j : Int) + 1) := by
  have hrun := GetJsonRetryable.run_all_fail (Client.around Session.down 0) "/node" none
    World.start 1 (fun j => "connection refused #" ++ toString j) (by decide)
    (fun j _ => by simp [Client.around, Session.down, World.start])
  have hrun3 := GetJsonRetryable.run_all_fail (Client.around Session.down 0) "/node" none
    World.start 3 (fun j => "connection refused #" ++ toString j) (by decide)
    (fun j _ => by simp [Client.around, Session.down, World.start])
  simp only [Nat.cast_one] at hrun
  simp only [Nat.cast_ofNat] at hrun3
  rw [hrun, hrun3]
  simp [World.start, retryTrace, sleepsOf, List.range_succ]

/-- What the loop does when all n >= 1 attempts fail: it adds n times
"GET, sleep" to the trace, so it sleeps 1, 2, ..., n seconds, and the last
event before the error is returned is the sleep of n seconds. -/
theorem GetJsonRetryable.sleeps_all_fail (c : Client) (url : String)
    (data : JsonMap) (w : World) (n : Nat) (hn : 1 ≤ n)
    (hfail : ∀ j, j < n → ∃ m, c.session.GetJSON (w.calls + j) url = Except.error m) :
    (GetJsonRetryable c url data (n : Int) w).2.log = w.log ++ retryTrace url 0 n
    ∧ sleepsOf (GetJsonRetryable c url data (n : Int) w).2.log
        = sleepsOf w.log ++ (List.range n).map (fun (j : Nat) => (j : Int) + 1)
    ∧ ((List.range n).map (fun (j : Nat) => (j : Int) + 1)).length = n
    ∧ (GetJsonRetryable c url data (n : Int) w).2.log.getLast? = some (Event.sleep (n : Int))
    ∧ (GetJsonRetryable c url data (n : Int) w).1.1.isSome = true := by
  let e : Nat → String := fun j =>
    match c.session.GetJSON (w.calls + j) url with
    | Except.error m => m
    | Except.ok _ => ""
  have he : ∀ j, j < n → c.session.GetJSON (w.calls + j) url = Except.error (e j) := by
    intro j hj
    obtain ⟨m, hm⟩ := hfail j hj
    simp only [e, hm]
  have hmap : (List.range n).map (fun (j : Nat) => (0 : Int) + (j : Int) + 1)
      = (List.range n).map (fun (j : Nat) => (j : Int) + 1) := by
    apply List.map_congr_left
    intro j _
    ring
  have hlast : ∀ (k : Nat) (ii : Int) (l : List Event),
      (l ++ retryTrace url ii (k + 1)).getLast? = some (Event.sleep (ii + (k : Int) + 1)) := by
    intro k
    induction k with
    | zero => intro ii l; simp [retryTrace]
    | succ k ih =>
      intro ii l
      have h := ih (ii + 1) (l ++ [Event.get url, Event.sleep (ii + 1)])
      rw [List.append_assoc] at h
      rw [retryTrace]
      simp only [List.cons_append, List.nil_append] at h
      rw [h]
      push_cast
      congr 2
      ring
  rw [GetJsonRetryable.run_all_fail c url data w n e hn he]
  refine ⟨rfl, ?_, by simp, ?_, rfl⟩
  · simp only [sleepsOf_append, sleepsOf_retryTrace, hmap]
  · obtain ⟨k, rfl⟩ : ∃ k, n = k + 1 := ⟨n - 1, by omega⟩
    rw [hlast k 0 w.log]
    push_cast
    congr 2
    ring

/-! ## Task status and the polling loop -/

theorem GetTaskExitstatus.of_error (L : GoLib) (c : Client) (t : Int) (w : World) (m : String)
    (h : c.session.GetJSON w.calls (taskStatusUrl t) = Except.error m) :
    GetTaskExitstatus L c t w
      = (Run.ret ("", some (L.Errorf "")), w.request (Event.get (taskStatusUrl t))) := by
  simp only [GetTaskExitstatus, h]
  rw [if_pos (by decide)]

theorem GetTaskExitstatus.of_status (L : GoLib) (c : Client) (t : Int) (w : World)
    (data : JsonMap) (task : List (String × Json)) (rest : List Json) (s : String)
    (h : c.session.GetJSON w.calls (taskStatusUrl t) = Except.ok data)
    (hlist : data.index "list" = Json.arr (Json.obj task :: rest))
    (hstatus : JsonMap.index (some task) "status" = Json.str s) :
    GetTaskExitstatus L c t w
      = (Run.ret (s, if s ≠ exitStatusSuccess then some (L.Errorf s) else none),
          w.request (Event.get (taskStatusUrl t))) := by
  simp only [GetTaskExitstatus, h, hlist, Json.asSlice, Json.asMap, hstatus, Json.asString]

theorem GetTaskExitstatus.of_unresolved (L : GoLib) (c : Client) (t : Int) (w : World)
    (h : Unresolved (c.session.GetJSON w.calls (taskStatusUrl t))) :
    ∃ s m, GetTaskExitstatus L c t w
      = (Run.ret (s, some m), w.request (Event.get (taskStatusUrl t))) := by
  rcases h with ⟨m, hm⟩ | ⟨data, task, rest, s, hok, hlist, hstatus, hne⟩
  · exact ⟨"", L.Errorf "", GetTaskExitstatus.of_error L c t w m hm⟩
  · refine ⟨s, L.Errorf s, ?_⟩
    rw [GetTaskExitstatus.of_status L c t w data task rest s hok hlist hstatus, if_pos hne]

theorem GetTaskExitstatus.of_completed (L : GoLib) (c : Client) (t : Int) (w : World)
    (h : Completed (c.session.GetJSON w.calls (taskStatusUrl t))) :
    GetTaskExitstatus L c t w
      = (Run.ret ("complete", none), w.request (Event.get (taskStatusUrl t))) := by
  obtain ⟨data, task, rest, hok, hlist, hstatus⟩ := h
  rw [GetTaskExitstatus.of_status L c t w data task rest "complete" hok hlist hstatus]
  simp [exitStatusSuccess]

theorem GetTaskExitstatus.of_empty_task_list (L : GoLib) (c : Client) (t : Int) (w : World)
    (data : JsonMap)
    (h : c.session.GetJSON w.calls (taskStatusUrl t) = Except.ok data)
    (hlist : data.index "list" = Json.arr []) :
    GetTaskExitstatus L c t w
      = (Run.panic "index out of range [0] with length 0",
          w.request (Event.get (taskStatusUrl t))) := by
  simp only [GetTaskExitstatus, h, hlist, Json.asSlice]

theorem WaitForCompletion.poll_done (L : GoLib) (c : Client) (t waited : Int) (w : World)
    (h : ¬ waited < c.TaskTimeout) :
    WaitForCompletion.loop L c t waited w
      = (Run.ret (some ("Wait timeout for: " ++ toString t)), w) := by
  rw [WaitForCompletion.loop, if_neg h]

theorem WaitForCompletion.poll_step (L : GoLib) (c : Client) (t waited : Int) (w : World)
    (h : waited < c.TaskTimeout) :
    WaitForCompletion.loop L c t waited w
      = match GetTaskExitstatus L c t w with
        | (Run.panic r, w1) => (Run.panic r, w1)
        | (Run.ret (_, none), w1) => (Run.ret none, w1)
        | (Run.ret (_, some _), w1) =>
          WaitForCompletion.loop L c t (waited + TaskStatusCheckInterval)
            (w1.sleep TaskStatusCheckInterval) := by
  rw [WaitForCompletion.loop, if_pos h]

/-- After `q` unresolved polls in a row the loop stands at `waited + 5 * q`
and has recorded a status GET and a sleep of one interval for each. -/
theorem WaitForCompletion.poll_unresolved (L : GoLib) (c : Client) (t : Int) (q : Nat) :
    ∀ (waited : Int) (w : World),
      (∀ j, j < q → Unresolved (c.session.GetJSON (w.calls + j) (taskStatusUrl t))) →
      waited + 5 * (q : Int) < c.TaskTimeout + 5 →
      WaitForCompletion.loop L c t waited w
        = WaitForCompletion.loop L c t (waited + 5 * (q : Int))
            { calls := w.calls + q, log := w.log ++ pollTrace (taskStatusUrl t) q } := by
  induction q with
  | zero =>
    intro waited w _ _
    simp [pollTrace]
  | succ q ih =>
    intro waited w hun hlt
    have hlt0 : waited < c.TaskTimeout := by push_cast at hlt; omega
    obtain ⟨s, m, hgte⟩ := GetTaskExitstatus.of_unresolved L c t w (by simpa using hun 0 (Nat.succ_pos q))
    rw [WaitForCompletion.poll_step L c t waited w hlt0, hgte]
    simp only
    rw [ih (waited + TaskStatusCheckInterval)
      ((w.request (Event.get (taskStatusUrl t))).sleep TaskStatusCheckInterval)]
    · have hw : waited + TaskStatusCheckInterval + 5 * (q : Int)
          = waited + 5 * ((q + 1 : Nat) : Int) := by
        simp only [TaskStatusCheckInterval]; push_cast; ring
      rw [hw]
      congr 1
      simp only [World.request, World.sleep, pollTrace, List.append_assoc,
        List.singleton_append, World.mk.injEq]
      exact ⟨by omega, by simp⟩
    · intro j hj
      have := hun (j + 1) (Nat.succ_lt_succ hj)
      simp only [World.request, World.sleep]
      have hidx : w.calls + 1 + j = w.calls + (j + 1) := by omega
      rw [hidx]
      exact this
    · simp only [TaskStatusCheckInterval]
      push_cast at hlt
      omega

theorem pollCount_spec (T : Int) (hT : 0 ≤ T) :
    T ≤ 5 * (pollCount T : Int) ∧ 5 * (pollCount T : Int) < T + 5 := by
  unfold pollCount
  have h : 0 ≤ (T + 4) / 5 := by omega
  rw [Int.toNat_of_nonneg h]
  omega

/-! ## WaitForCompletion -/

theorem WaitForCompletion.of_task (L : GoLib) (c : Client) (resp : JsonMap) (x : Rat)
    (w : World) (herr : resp.index "error" = Json.null)
    (htask : resp.index "task" = Json.num x) :
    WaitForCompletion L c resp w = WaitForCompletion.loop L c (goInt x) 0 w := by
  simp [WaitForCompletion, herr, htask, Json.isNil, Json.asFloat64]

theorem goInt_of_fits (x : Rat) (hlo : MinInt64 ≤ truncFloat x) (hhi : truncFloat x ≤ MaxInt64) :
    goInt x = truncFloat x := by
  rw [goInt, if_pos ⟨hlo, hhi⟩]

/-- A number too large for `int`: the conversion gives the least `int`. -/
theorem goInt_out_of_range :
    goInt 10000000000000000000 = -9223372036854775808
    ∧ goInt 9223372036854775807 = 9223372036854775807
    ∧ goInt 42 = 42
    ∧ goInt (-42) = -42 := by
  decide

/-- C1: whenever the `error` field of the mutation response is present and
not null, with or without a `task` field, `WaitForCompletion` returns the
error whose message is "error reponse: " followed by the indented JSON
rendering of that field, and leaves the world as it found it: no request to
the session and no sleep. -/
theorem WaitForCompletion_error_field (L : GoLib) (c : Client) (resp : JsonMap) (w : World)
    (herr : resp.index "error" ≠ Json.null) :
    WaitForCompletion L c resp w
      = (Run.ret (some ("error reponse: " ++ L.MarshalIndent (resp.index "error"))), w) := by
  have h : (resp.index "error").isNil = false := by
    cases hj : resp.index "error" with
    | null => exact absurd hj herr
    | _ => rfl
  simp [WaitForCompletion, h]

/-- A run of C1: the response carries both an `error` and a `task`. -/
theorem WaitForCompletion_error_field_witness :
    WaitForCompletion GoLib.plain (Client.around Session.down 30)
        (some [("task", Json.num 42), ("error", Json.str "quota exceeded")]) World.start
      = (Run.ret (some ("error reponse: " ++ GoLib.plain.MarshalIndent
          (JsonMap.index (some [("task", Json.num 42), ("error", Json.str "quota exceeded")])
            "error"))), World.start) :=
  WaitForCompletion_error_field GoLib.plain (Client.around Session.down 30)
    (some [("task", Json.num 42), ("error", Json.str "quota exceeded")]) World.start
    (by simp [JsonMap.index, List.lookup])

/-- C2, as stated, fails at timeout 0: the response defers to task 42, the
first status query would answer `complete`, yet the loop condition `0 < 0`
is false at once, so the call returns the timeout error without having
asked the session anything. -/
theorem WaitForCompletion_zero_timeout_never_polls :
    Completed ((Client.around (Session.always (statusBody "complete")) 0).session.GetJSON
        World.start.calls (taskStatusUrl 42))
    ∧ JsonMap.index deferredAck "error" = Json.null
    ∧ JsonMap.index deferredAck "task" = Json.num 42
    ∧ goInt 42 = 42
    ∧ (WaitForCompletion GoLib.plain (Client.around (Session.always (statusBody "complete")) 0)
        deferredAck World.start).1 = Run.ret (some "Wait timeout for: 42")
    ∧ (WaitForCompletion GoLib.plain (Client.around (Session.always (statusBody "complete")) 0)
        deferredAck World.start).1 ≠ Run.ret none
    ∧ getsOf (WaitForCompletion GoLib.plain
        (Client.around (Session.always (statusBody "complete")) 0)
        deferredAck World.start).2.log = 0 := by
  have herr : JsonMap.index deferredAck "error" = Json.null := by
    simp [deferredAck, JsonMap.index, List.lookup]
  have htask : JsonMap.index deferredAck "task" = Json.num 42 := by
    simp [deferredAck, JsonMap.index, List.lookup]
  have hrun : WaitForCompletion GoLib.plain
      (Client.around (Session.always (statusBody "complete")) 0) deferredAck World.start
      = (Run.ret (some "Wait timeout for: 42"), World.start) := by
    rw [WaitForCompletion.of_task _ _ _ 42 _ herr htask,
      WaitForCompletion.poll_done _ _ _ _ _ (by simp [Client.around])]
    have : toString (goInt 42) = "42" := by decide
    rw [this]
    rfl
  refine ⟨⟨statusBody "complete", [("status", Json.str "complete")], [], rfl, ?_, ?_⟩,
    herr, htask, by decide, ?_, ?_, ?_⟩
  · simp [statusBody, JsonMap.index, List.lookup]
  · simp [JsonMap.index, List.lookup]
  · rw [hrun]
  · rw [hrun]
    intro h
    cases h
  · rw [hrun]
    simp [World.start, getsOf]

/-- C2, amended to timeouts of at least 1: if the response carries a `task`
(a number whose integer part, the task id, is a value of `int`) and no
`error`, and the first status query for that task id answers with a list
whose first record has status exactly `complete`, `WaitForCompletion`
returns success after exactly one status query (for that task id) and
without any sleep. -/
theorem WaitForCompletion_complete_on_first_poll (L : GoLib) (c : Client) (resp : JsonMap)
    (x : Rat) (w : World)
    (hT : 1 ≤ c.TaskTimeout)
    (herr : resp.index "error" = Json.null)
    (htask : resp.index "task" = Json.num x)
    (hlo : MinInt64 ≤ truncFloat x) (hhi : truncFloat x ≤ MaxInt64)
    (hdone : Completed (c.session.GetJSON w.calls (taskStatusUrl (truncFloat x)))) :
    WaitForCompletion L c resp w
        = (Run.ret none, w.request (Event.get (taskStatusUrl (truncFloat x))))
    ∧ (WaitForCompletion L c resp w).2.log
        = w.log ++ [Event.get (taskStatusUrl (truncFloat x))]
    ∧ getsOf (WaitForCompletion L c resp w).2.log = getsOf w.log + 1
    ∧ sleepsOf (WaitForCompletion L c resp w).2.log = sleepsOf w.log := by
  have hrun : WaitForCompletion L c resp w
      = (Run.ret none, w.request (Event.get (taskStatusUrl (truncFloat x)))) := by
    rw [WaitForCompletion.of_task L c resp x w herr htask, goInt_of_fits x hlo hhi,
      WaitForCompletion.poll_step L c _ 0 w (by omega),
      GetTaskExitstatus.of_completed L c _ w hdone]
  rw [hrun]
  refine ⟨rfl, rfl, ?_, ?_⟩
  · simp [World.request, getsOf_append, getsOf]
  · simp [World.request, sleepsOf_append, sleepsOf]

/-- A run of amended C2: timeout 1, task 42 complete at the first query. -/
theorem WaitForCompletion_complete_on_first_poll_witness :
    (1 ≤ (Client.around (Session.always (statusBody "complete")) 1).TaskTimeout)
    ∧ (MinInt64 ≤ truncFloat 42 ∧ truncFloat 42 ≤ MaxInt64)
    ∧ WaitForCompletion GoLib.plain (Client.around (Session.always (statusBody "complete")) 1)
        deferredAck World.start
      = (Run.ret none, World.start.request (Event.get (taskStatusUrl (truncFloat 42)))) :=
  ⟨by decide, by decide,
    (WaitForCompletion_complete_on_first_poll GoLib.plain
      (Client.around (Session.always (statusBody "complete")) 1) deferredAck 42 World.start
      (by decide)
      (by simp [deferredAck, JsonMap.index, List.lookup])
      (by simp [deferredAck, JsonMap.index, List.lookup])
      (by decide) (by decide)
      ⟨statusBody "complete", [("status", Json.str "complete")], [], rfl,
        by simp [statusBody, JsonMap.index, List.lookup],
        by simp [JsonMap.index, List.lookup]⟩).1⟩

/-- C3: for every timeout T >= 0 (with T + 4 a value of `int`) and every
response that defers to a task (no `error`; the `task` is a number whose
integer part, the task id t, is a value of `int`), if every status query
for t is unresolved (a transport error, or a non-empty list whose first
record has a string status other than `complete`), `WaitForCompletion`
returns the error "Wait timeout for: t".  The trace it adds is q times
"status GET, sleep 5" with q = ceil(T/5): q status queries, q sleeps of
exactly 5 seconds each, and a total sleep W = 5q with T <= W < T + 5; the
counter `waited` ends at W, itself a value of `int`. -/
theorem WaitForCompletion_times_out (L : GoLib) (c : Client) (resp : JsonMap)
    (x : Rat) (w : World)
    (hT : 0 ≤ c.TaskTimeout)
    (hfit : c.TaskTimeout + 4 ≤ MaxInt64)
    (herr : resp.index "error" = Json.null)
    (htask : resp.index "task" = Json.num x)
    (hlo : MinInt64 ≤ truncFloat x) (hhi : truncFloat x ≤ MaxInt64)
    (hun : ∀ j, Unresolved (c.session.GetJSON (w.calls + j) (taskStatusUrl (truncFloat x)))) :
    (WaitForCompletion L c resp w).1
        = Run.ret (some ("Wait timeout for: " ++ toString (truncFloat x)))
    ∧ (WaitForCompletion L c resp w).2.log
        = w.log ++ pollTrace (taskStatusUrl (truncFloat x)) (pollCount c.TaskTimeout)
    ∧ getsOf (WaitForCompletion L c resp w).2.log = getsOf w.log + pollCount c.TaskTimeout
    ∧ sleepsOf (WaitForCompletion L c resp w).2.log
        = sleepsOf w.log ++ List.replicate (pollCount c.TaskTimeout) 5
    ∧ c.TaskTimeout ≤ (List.replicate (pollCount c.TaskTimeout) (5 : Int)).sum
    ∧ (List.replicate (pollCount c.TaskTimeout) (5 : Int)).sum < c.TaskTimeout + 5
    ∧ (pollCount c.TaskTimeout : Int) = ⌈(c.TaskTimeout : ℚ) / 5⌉
    ∧ 5 * (pollCount c.TaskTimeout : Int) ≤ MaxInt64 := by
  obtain ⟨hge, hlt⟩ := pollCount_spec c.TaskTimeout hT
  have hrun : WaitForCompletion L c resp w
      = (Run.ret (some ("Wait timeout for: " ++ toString (truncFloat x))),
          { calls := w.calls + pollCount c.TaskTimeout,
            log := w.log
              ++ pollTrace (taskStatusUrl (truncFloat x)) (pollCount c.TaskTimeout) }) := by
    rw [WaitForCompletion.of_task L c resp x w herr htask, goInt_of_fits x hlo hhi,
      WaitForCompletion.poll_unresolved L c (truncFloat x) (pollCount c.TaskTimeout) 0 w
        (fun j _ => hun j) (by omega),
      WaitForCompletion.poll_done L c _ _ _ (by omega)]
  have hsum : (List.replicate (pollCount c.TaskTimeout) (5 : Int)).sum
      = 5 * (pollCount c.TaskTimeout : Int) := by
    simp [List.sum_replicate, mul_comm]
  rw [hrun, hsum]
  refine ⟨rfl, rfl, ?_, ?_, hge, hlt, ?_, by omega⟩
  · simp only [getsOf_append, getsOf_pollTrace]
  · simp only [sleepsOf_append, sleepsOf_pollTrace, TaskStatusCheckInterval]
  · symm
    rw [Int.ceil_eq_iff]
    constructor
    · rw [lt_div_iff₀ (by norm_num)]
      have : ((5 * (pollCount c.TaskTimeout : Int) : Int) : ℚ) < ((c.TaskTimeout + 5 : Int) : ℚ) := by
        exact_mod_cast hlt
      push_cast at this ⊢
      linarith
    · rw [div_le_iff₀ (by norm_num)]
      have : ((c.TaskTimeout : Int) : ℚ) ≤ ((5 * (pollCount c.TaskTimeout : Int) : Int) : ℚ) := by
        exact_mod_cast hge
      push_cast at this ⊢
      linarith

/-- A run of C3: timeout 12 against a session that is down gives three
status queries and three sleeps of 5 seconds, 15 in all. -/
theorem WaitForCompletion_times_out_witness :
    (0 ≤ (Client.around Session.down 12).TaskTimeout)
    ∧ ((Client.around Session.down 12).TaskTimeout + 4 ≤ MaxInt64)
    ∧ (MinInt64 ≤ truncFloat 42 ∧ truncFloat 42 ≤ MaxInt64)
    ∧ (WaitForCompletion GoLib.plain (Client.around Session.down 12) deferredAck
        World.start).1 = Run.ret (some ("Wait timeout for: " ++ toString (truncFloat 42)))
    ∧ sleepsOf (WaitForCompletion GoLib.plain (Client.around Session.down 12) deferredAck
        World.start).2.log
        = sleepsOf World.start.log
          ++ List.replicate (pollCount (Client.around Session.down 12).TaskTimeout) 5 :=
  have h := WaitForCompletion_times_out GoLib.plain (Client.around Session.down 12)
    deferredAck 42 World.start (by decide) (by decide)
    (by simp [deferredAck, JsonMap.index, List.lookup])
    (by simp [deferredAck, JsonMap.index, List.lookup])
    (by decide) (by decide)
    (fun j => Or.inl ⟨"connection refused #" ++ toString (World.start.calls + j), rfl⟩)
  ⟨by decide, by decide, by decide, h.1, h.2.2.2.1⟩

/-- C4 fails on the code: when the status query succeeds at transport level
with an empty `list`, `GetTaskExitstatus` does not return a non-success
result, it panics on `tasks[0]`; `WaitForCompletion` (timeout 30, task 42)
is taken down by the same panic at its first poll, with a single status GET
in the trace, no sleep and no second query. -/
theorem GetTaskExitstatus_empty_list_panics :
    GetTaskExitstatus GoLib.plain (Client.around (Session.always emptyListBody) 30) 42
        World.start
      = (Run.panic "index out of range [0] with length 0",
          World.start.request (Event.get (taskStatusUrl 42)))
    ∧ WaitForCompletion GoLib.plain (Client.around (Session.always emptyListBody) 30)
        deferredAck World.start
      = (Run.panic "index out of range [0] with length 0",
          World.start.request (Event.get (taskStatusUrl 42)))
    ∧ (World.start.request (Event.get (taskStatusUrl 42))).log
      = [Event.get "/task?where=consul_id+EQ+42"] := by
  have hlist : JsonMap.index emptyListBody "list" = Json.arr [] := by
    simp [emptyListBody, JsonMap.index, List.lookup]
  have hgte := GetTaskExitstatus.of_empty_task_list GoLib.plain
    (Client.around (Session.always emptyListBody) 30) 42 World.start emptyListBody rfl hlist
  have h42 : goInt 42 = 42 := by decide
  refine ⟨hgte, ?_, by decide⟩
  rw [WaitForCompletion.of_task _ _ _ 42 _
      (by simp [deferredAck, JsonMap.index, List.lookup])
      (by simp [deferredAck, JsonMap.index, List.lookup]),
    WaitForCompletion.poll_step _ _ _ 0 _ (by simp [Client.around]), h42, hgte]

/-! ## GetVmInfo -/

theorem GetVmInfo.of_answer (c : Client) (vmr : VmRef) (w : World) (vmlist : JsonMap)
    (h : c.session.GetJSON w.calls (hostFilterUrl vmr.vmId) = Except.ok vmlist) :
    GetJsonRetryable c (hostFilterUrl vmr.vmId) none 3 w
      = ((none, vmlist), w.request (Event.get (hostFilterUrl vmr.vmId))) := by
  rw [GetJsonRetryable, GetJsonRetryable.retry_ok c _ 3 0 none none vmlist w (by decide) h]

/-- With the `list` field absent (or null) the lookup reports that the VM cannot be found. -/
theorem GetVmInfo.of_absent_list (c : Client) (vmr : VmRef) (w : World) (vmlist : JsonMap)
    (h : c.session.GetJSON w.calls (hostFilterUrl vmr.vmId) = Except.ok vmlist)
    (hlist : vmlist.index "list" = Json.null) :
    GetVmInfo c vmr w
      = (Run.ret (none, some ("can't find vm id " ++ toString vmr.vmId)),
          w.request (Event.get (hostFilterUrl vmr.vmId))) := by
  simp only [GetVmInfo, GetVmInfo.of_answer c vmr w vmlist h, hlist, Json.isNil, if_true]

/-- With a non-empty `list` whose first element is a record, that record is returned. -/
theorem GetVmInfo.of_first_record (c : Client) (vmr : VmRef) (w : World) (vmlist : JsonMap)
    (vm : List (String × Json)) (rest : List Json)
    (h : c.session.GetJSON w.calls (hostFilterUrl vmr.vmId) = Except.ok vmlist)
    (hlist : vmlist.index "list" = Json.arr (Json.obj vm :: rest)) :
    GetVmInfo c vmr w
      = (Run.ret (some vm, none), w.request (Event.get (hostFilterUrl vmr.vmId))) := by
  simp [GetVmInfo, GetVmInfo.of_answer c vmr w vmlist h, hlist, Json.isNil, Json.asSlice,
    Json.asMap]

/-- With a `list` that is the empty array the nil test passes and `vms[0]` panics. -/
theorem GetVmInfo.of_empty_vm_list (c : Client) (vmr : VmRef) (w : World) (vmlist : JsonMap)
    (h : c.session.GetJSON w.calls (hostFilterUrl vmr.vmId) = Except.ok vmlist)
    (hlist : vmlist.index "list" = Json.arr []) :
    GetVmInfo c vmr w
      = (Run.panic "index out of range [0] with length 0",
          w.request (Event.get (hostFilterUrl vmr.vmId))) := by
  simp [GetVmInfo, GetVmInfo.of_answer c vmr w vmlist h, hlist, Json.isNil, Json.asSlice]

/-- C5 fails on the code for the empty array: the listing request for VM 7
succeeds at its first attempt with a `list` that is `[]`; `GetVmInfo` does
not return the not-found error, it panics on `vms[0]`. -/
theorem GetVmInfo_empty_list_panics :
    GetVmInfo (Client.around (Session.always emptyListBody) 30) { vmId := 7 } World.start
      = (Run.panic "index out of range [0] with length 0",
          World.start.request (Event.get (hostFilterUrl 7)))
    ∧ hostFilterUrl 7 = "/host?where=id+EQ+7" :=
  ⟨GetVmInfo.of_empty_vm_list (Client.around (Session.always emptyListBody) 30) { vmId := 7 }
      World.start emptyListBody rfl (by simp [emptyListBody, JsonMap.index, List.lookup]),
    by decide⟩

/-! ## CreateQemuVm -/

/-- When the POST is answered with a body that has a non-null `error` and no
`id`, the error from `WaitForCompletion` is stored and the next statement,
`data["id"].(float64)`, panics before anything is returned. -/
theorem CreateQemuVm.of_error_without_id (L : GoLib) (c : Client) (vmParams : ConfigNewQemu)
    (w : World) (kvs : List (String × Json))
    (h : c.session.PostJSON w.calls "/host" = Except.ok (some kvs))
    (herr : JsonMap.index (some kvs) "error" ≠ Json.null)
    (hid : JsonMap.index (some kvs) "id" = Json.null) :
    CreateQemuVm L c vmParams w
      = (Run.panic "interface conversion: not float64", w.request (Event.post "/host")) := by
  have hisNil : (JsonMap.index (some kvs) "error").isNil = false := by
    cases hj : JsonMap.index (some kvs) "error" with
    | null => exact absurd hj herr
    | _ => rfl
  simp [CreateQemuVm, h, WaitForCompletion, hisNil, hid, Json.asFloat64]

/-- When the body has a non-null `error` and a numeric `id`, the rendered
error is returned together with that id, and nothing is polled. -/
theorem CreateQemuVm.of_error_with_id (L : GoLib) (c : Client) (vmParams : ConfigNewQemu)
    (w : World) (kvs : List (String × Json)) (x : Rat)
    (h : c.session.PostJSON w.calls "/host" = Except.ok (some kvs))
    (herr : JsonMap.index (some kvs) "error" ≠ Json.null)
    (hid : JsonMap.index (some kvs) "id" = Json.num x) :
    CreateQemuVm L c vmParams w
      = (Run.ret (goInt x, some ("error reponse: "
            ++ L.MarshalIndent (JsonMap.index (some kvs) "error"))),
          w.request (Event.post "/host")) := by
  have hisNil : (JsonMap.index (some kvs) "error").isNil = false := by
    cases hj : JsonMap.index (some kvs) "error" with
    | null => exact absurd hj herr
    | _ => rfl
  simp [CreateQemuVm, h, WaitForCompletion, hisNil, hid, Json.asFloat64]

/-- C8 fails on the code: the POST is answered with an error object and no
`id`.  `WaitForCompletion` does return the rendered error without polling,
but `CreateQemuVm` then asserts `data["id"].(float64)` on a missing field
and panics; the trace holds the POST alone. -/
theorem CreateQemuVm_error_without_id_panics :
    (Client.around (Session.mutation errorAck (statusBody "complete")) 30).session.PostJSON
        World.start.calls "/host" = Except.ok errorAck
    ∧ JsonMap.index errorAck "error" = Json.obj [("code", Json.num 1)]
    ∧ CreateQemuVm GoLib.plain
        (Client.around (Session.mutation errorAck (statusBody "complete")) 30)
        { text := "name:web-1" } World.start
      = (Run.panic "interface conversion: not float64",
          World.start.request (Event.post "/host"))
    ∧ (World.start.request (Event.post "/host")).log = [Event.post "/host"] := by
  have herr : JsonMap.index errorAck "error" = Json.obj [("code", Json.num 1)] := by
    simp [errorAck, JsonMap.index, List.lookup]
  refine ⟨rfl, herr, ?_, by decide⟩
  apply CreateQemuVm.of_error_without_id _ _ _ _ [("error", Json.obj [("code", Json.num 1)])] rfl
  · have h2 : JsonMap.index (some [("error", Json.obj [("code", Json.num 1)])]) "error"
        = Json.obj [("code", Json.num 1)] := herr
    rw [h2]
    intro hcontra
    cases hcontra
  · simp [JsonMap.index, List.lookup]

/-! ## UpdateQemuConfig -/

/-- C9: `UpdateQemuConfig` hands exactly one POST to the session and nothing
else: no status query and no sleep, whatever the answer holds.  It returns
success for every non-nil decoded answer (a `task` or an `error` inside it
makes no difference), the transport error unchanged when the POST fails, and
"Can't update VM <id> config" when the decoded answer is nil; these are its
only failures. -/
theorem UpdateQemuConfig_never_waits (c : Client) (vmr : VmRef) (config : UpdateConfigQemu)
    (w : World) :
    (UpdateQemuConfig c vmr config w).2 = w.request (Event.post (hostUrl vmr.vmId))
    ∧ (UpdateQemuConfig c vmr config w).2.log = w.log ++ [Event.post (hostUrl vmr.vmId)]
    ∧ getsOf (UpdateQemuConfig c vmr config w).2.log = getsOf w.log
    ∧ sleepsOf (UpdateQemuConfig c vmr config w).2.log = sleepsOf w.log
    ∧ (∀ kvs, c.session.PostJSON w.calls (hostUrl vmr.vmId) = Except.ok (some kvs) →
        (UpdateQemuConfig c vmr config w).1 = none)
    ∧ (∀ err, c.session.PostJSON w.calls (hostUrl vmr.vmId) = Except.error err →
        (UpdateQemuConfig c vmr config w).1 = some err)
    ∧ (c.session.PostJSON w.calls (hostUrl vmr.vmId) = Except.ok none →
        (UpdateQemuConfig c vmr config w).1
          = some ("Can't update VM " ++ toString vmr.vmId ++ " config"))
    ∧ ((UpdateQemuConfig c vmr config w).1 ≠ none →
        (∃ err, c.session.PostJSON w.calls (hostUrl vmr.vmId) = Except.error err)
        ∨ c.session.PostJSON w.calls (hostUrl vmr.vmId) = Except.ok none) := by
  have hworld : (UpdateQemuConfig c vmr config w).2
      = w.request (Event.post (hostUrl vmr.vmId)) := by
    simp only [UpdateQemuConfig]
    split
    · rfl
    · split <;> rfl
  refine ⟨hworld, ?_, ?_, ?_, ?_, ?_, ?_, ?_⟩
  · rw [hworld]; rfl
  · rw [hworld]; simp [World.request, getsOf_append, getsOf]
  · rw [hworld]; simp [World.request, sleepsOf_append, sleepsOf]
  · intro kvs h
    simp [UpdateQemuConfig, h]
  · intro err h
    simp [UpdateQemuConfig, h]
  · intro h
    simp [UpdateQemuConfig, h]
  · intro hne
    cases h : c.session.PostJSON w.calls (hostUrl vmr.vmId) with
    | error err => exact Or.inl ⟨err, rfl⟩
    | ok data =>
      cases data with
      | none => exact Or.inr rfl
      | some kvs =>
        exfalso
        apply hne
        simp [UpdateQemuConfig, h]

/-- A run of C9: the answer to the update of VM 7 carries both a `task` and
an `error`; the call still succeeds, with the POST as its whole trace. -/
theorem UpdateQemuConfig_never_waits_witness :
    UpdateQemuConfig
        (Client.around (Session.always
          (some [("task", Json.num 42), ("error", Json.str "quota exceeded")])) 30)
        { vmId := 7 } { text := "cores:2" } World.start
      = (none, { calls := 1, log := [Event.post "/host/7"] }) := by
  have h := UpdateQemuConfig_never_waits
    (Client.around (Session.always
      (some [("task", Json.num 42), ("error", Json.str "quota exceeded")])) 30)
    { vmId := 7 } { text := "cores:2" } World.start
  have h1 := h.1
  have h2 := h.2.2.2.2.1 [("task", Json.num 42), ("error", Json.str "quota exceeded")] rfl
  have hurl : hostUrl 7 = "/host/7" := by decide
  rw [hurl] at h1
  exact Prod.ext h2 h1

end Vmmanager6
